import Mathlib

/-!
Verification of the staking / event-mirror / reporting logic of the
`trader-quickstart` operator toolkit.

The Python sources are shallowly embedded: contract view results
(`uint256` values such as staking states, rewards, timestamps) become
`Nat`, wall-clock floats (`time.time()`) become `ℚ`, Python dicts become
ordered association lists with Python dict semantics (insertion order,
in-place overwrite), and the side-effecting scripts become pure functions
that return their exit code together with the list of transactions they
issued.
-/

set_option maxRecDepth 4000

/-! ## Constants (scripts/utils.py, scripts/mech_events.py) -/

def ZERO_ADDRESS : String := "0x0000000000000000000000000000000000000000"

def ZERO_ETH : Nat := 0

def DEFAULT_MECH_FEE : Nat := 10000000000000000

def MINIMUM_WRITE_FILE_DELAY : ℚ := 20

/-! ## Claim C1: scripts/staking.py, `_check_unstaking_availability`

The source reads `now = time.time()` (a float, embedded as `ℚ`),
`ts_start` (entry 3 of `get_service_info`), `minimum_staking_duration`
and `available_rewards` (contract uints, embedded as `Nat`), and returns
`False` exactly on the branch
`(now - ts_start) < minimum_staking_duration and available_rewards > 0`,
else `True`. -/

def check_unstaking_availability (now : ℚ) (ts_start : Nat)
    (minimum_staking_duration : Nat) (available_rewards : Nat) : Bool :=
  if now - (ts_start : ℚ) < (minimum_staking_duration : ℚ) ∧ 0 < available_rewards then
    false
  else
    true

/-! ## Claim C6: scripts/utils.py, `is_service_staked` / `is_service_evicted`

`get_service_staking_state` returns the on-chain enum value
(0 = UNSTAKED, 1 = STAKED, 2 = EVICTED), embedded as `Nat`. -/

def is_service_staked (service_staking_state : Nat) : Bool :=
  service_staking_state == 1 || service_staking_state == 2

def is_service_evicted (service_staking_state : Nat) : Bool :=
  service_staking_state == 2

/-! ## Claim C9: scripts/mech_events.py, `_write_mech_events_data_to_file`

The writer keeps a module-level `last_write_time` (a float, embedded as
`ℚ`) and writes the JSON file only when forced or when at least
`MINIMUM_WRITE_FILE_DELAY` seconds have elapsed.  The embedding returns
the updated `last_write_time` together with whether the file was
written. -/

def write_mech_events_data_to_file (last_write_time : ℚ) (now : ℚ)
    (force_write : Bool) : ℚ × Bool :=
  if force_write || decide (now - last_write_time ≥ MINIMUM_WRITE_FILE_DELAY) then
    (now, true)
  else
    (last_write_time, false)

/-! ## Claims C4 and C3: scripts/utils.py `get_stake_txs` / `get_unstake_txs`
and scripts/staking.py `_try_stake_service`

A transaction descriptor is a `{data, to, value}` dict.  The `data`
payloads are produced by external ABI encoders
(`erc20.build_approval_tx`, `staking_contract.build_stake_tx`,
`staking_contract.build_unstake_tx`); they are embedded symbolically as
an inductive of the encoded call. -/

inductive TxData where
  | approval (token : String) (spender : String) (amount : Nat)
  | stake (service_id : Nat)
  | unstake (service_id : Nat)
deriving DecidableEq, Repr

structure Tx where
  txData : TxData
  toAddress : String
  value : Nat
deriving DecidableEq, Repr

/-- `get_approval_tx` builds the approval descriptor: the encoded
`approve(spender, amount)` call, addressed to the token contract, with
zero value. -/
def get_approval_tx (token : String) (spender : String) (amount : Nat) : Tx :=
  { txData := TxData.approval token spender amount
    toAddress := token
    value := ZERO_ETH }

/-- `get_stake_txs`: first the ERC-20/721-style approval of the staking
contract for the service id against the service registry, then the
`stake(service_id)` call against the staking contract. -/
def get_stake_txs (service_id : Nat) (service_registry_address : String)
    (staking_contract_address : String) : List Tx :=
  let approval_tx :=
    get_approval_tx service_registry_address staking_contract_address service_id
  let stake_tx : Tx :=
    { txData := TxData.stake service_id
      toAddress := staking_contract_address
      value := ZERO_ETH }
  [approval_tx, stake_tx]

/-- `get_unstake_txs`: a single `unstake(service_id)` call. -/
def get_unstake_txs (service_id : Nat) (staking_contract_address : String) :
    List Tx :=
  let unstake_tx : Tx :=
    { txData := TxData.unstake service_id
      toAddress := staking_contract_address
      value := ZERO_ETH }
  [unstake_tx]

/-- Submission trace events: `send_tx_and_wait_for_receipt` submits a
transaction and blocks until its receipt is obtained. -/
inductive TraceEvent where
  | sent (tx : Tx)
  | receiptAwaited (tx : Tx)
deriving DecidableEq, Repr

/-- The trace of one `send_tx_and_wait_for_receipt` call: the submission
followed by the awaited receipt. -/
def send_tx_and_wait_for_receipt_trace (tx : Tx) : List TraceEvent :=
  [TraceEvent.sent tx, TraceEvent.receiptAwaited tx]

/-- The trace of the reconciler's `for tx in txs:
send_tx_and_wait_for_receipt(...)` loop: strictly sequential, each
receipt awaited before the next transaction is sent. -/
def send_all_txs_trace (txs : List Tx) : List TraceEvent :=
  txs.foldr (fun tx acc => send_tx_and_wait_for_receipt_trace tx ++ acc) []

/-- `_try_stake_service` (scripts/staking.py): returns the process exit
code together with the transactions issued.  `available_slots` is
`max_num_services - len(service_ids)` (a Python int, embedded as `Int`);
`available_rewards` is a contract uint. -/
def try_stake_service (service_id : Nat) (service_registry_address : String)
    (staking_contract_address : String) (available_slots : Int)
    (available_rewards : Nat) : Nat × List Tx :=
  if 0 < available_slots then
    if available_rewards = 0 then
      (0, [])
    else
      (0, get_stake_txs service_id service_registry_address
            staking_contract_address)
  else
    (1, [])

/-! ## Claim C2: scripts/choose_staking.py catalogs and
scripts/staking.py `_try_unstake_service` discovery

`STAKING_PROGRAMS` / `DEPRECATED_STAKING_PROGRAMS` (choose_staking.py)
map program ids to flat staking-contract address strings, and
choose_staking.py and run_service.py consume the values as such
(`STAKING_PROGRAMS.get(program_id)` used directly as an address).
staking.py's `_try_unstake_service`, however, subscripts each catalog
value with `["deployment"]["stakingTokenInstanceAddress"]`, which on a
string raises `TypeError`.  Python dicts preserve insertion order;
`dict.update` overwrites existing keys in place and appends new keys in
the updating dict's order; `del` removes a key leaving the rest in
order.  They are embedded as ordered association lists with exactly
those operations, and the failing subscription as an `Except`. -/

def STAKING_PROGRAMS : List (String × String) :=
  [("no_staking", ZERO_ADDRESS),
   ("quickstart_beta_hobbyist", "0x389B46c259631Acd6a69Bde8B6cEe218230bAE8C"),
   ("quickstart_beta_hobbyist_2", "0x238EB6993b90a978ec6AAD7530d6429c949C08DA"),
   ("quickstart_beta_expert", "0x5344B7DD311e5d3DdDd46A4f71481bD7b05AAA3e"),
   ("quickstart_beta_expert_2", "0xb964e44c126410df341ae04B13aB10A985fE3513"),
   ("quickstart_beta_expert_3", "0x80faD33Cadb5F53f9D29F02Db97D682E8b101618"),
   ("quickstart_beta_expert_4", "0xaD9d891134443B443D7F30013c7e14Fe27F2E029"),
   ("quickstart_beta_expert_5", "0xE56dF1E563De1B10715cB313D514af350D207212")]

def DEPRECATED_STAKING_PROGRAMS : List (String × String) :=
  [("quickstart_alpha_everest", "0x5add592ce0a1B5DceCebB5Dcac086Cd9F9e3eA5C"),
   ("quickstart_alpha_alpine", "0x2Ef503950Be67a98746F484DA0bBAdA339DF3326"),
   ("quickstart_alpha_coastal", "0x43fB32f25dce34EB76c78C7A42C8F40F84BCD237")]

/-- Python `d.update(e)`: keys of `d` keep their position (values
overwritten from `e` where present), keys of `e` absent from `d` are
appended in `e`'s order. -/
def py_dict_update {α : Type} (d e : List (String × α)) :
    List (String × α) :=
  d.map (fun kv =>
    match e.lookup kv.1 with
    | some v => (kv.1, v)
    | none => kv) ++
  e.filter (fun kv => !(d.any (fun kv2 => kv2.1 == kv.1)))

/-- Python `del d[k]`. -/
def py_dict_del {α : Type} (d : List (String × α)) (k : String) :
    List (String × α) :=
  d.filter (fun kv => kv.1 != k)

/-- `_try_unstake_service` catalog setup: copy the active programs,
update with the deprecated programs, delete the no-staking sentinel and
the excluded `quickstart_alpha_everest` program. -/
def all_staking_programs : List (String × String) :=
  py_dict_del
    (py_dict_del (py_dict_update STAKING_PROGRAMS DEPRECATED_STAKING_PROGRAMS)
      "no_staking")
    "quickstart_alpha_everest"

/-- Python `str.__getitem__` with a string index: strings are only
subscriptable by integers and slices, so subscribing a string with a
string key unconditionally raises
`TypeError: string indices must be integers`. -/
def py_str_getitem_str (_s _key : String) : Except String String :=
  Except.error "TypeError: string indices must be integers"

/-- `_try_unstake_service` discovery loop: iterate the catalog in
order, read each entry's contract address as
`data["deployment"]["stakingTokenInstanceAddress"]`, and probe it with
`is_service_staked` (abstracted as the probe function `staked`); a
truthy probe records that program as the current staking program (no
break, so a later positive would overwrite an earlier one).  The
catalogs this script imports (choose_staking.py) hold flat address
strings, so the first subscription is `str["deployment"]` and raises;
the exception aborts the loop and propagates to `main`'s broad handler,
which exits the process with code 1. -/
def try_unstake_discovery_loop (staked : String → Bool) :
    List (String × String) → Option (String × String) →
      Except String (Option (String × String))
  | [], acc => Except.ok acc
  | (program, data) :: rest, acc =>
    match py_str_getitem_str data "deployment" with
    | Except.error e => Except.error e
    | Except.ok deployment =>
      match py_str_getitem_str deployment "stakingTokenInstanceAddress" with
      | Except.error e => Except.error e
      | Except.ok address =>
        if staked address then
          try_unstake_discovery_loop staked rest (some (program, address))
        else
          try_unstake_discovery_loop staked rest acc

/-- The discovery phase of `_try_unstake_service`: the loop over the
assembled catalog, starting with no program selected. -/
def try_unstake_discovery (staked : String → Bool) :
    Except String (Option (String × String)) :=
  try_unstake_discovery_loop staked all_staking_programs none

/-- Fold-accumulator override: a later `some` beats the base value. -/
def option_override {α : Type} (base upd : Option α) : Option α :=
  match upd with
  | some x => some x
  | none => base

/-! ## Claim C5: scripts/utils.py, `send_tx`

The retry loop `while retries < max_retries and deadline >=
datetime.now().timestamp()` is embedded with an explicit clock (`Nat`
seconds) and an environment giving, for each loop iteration, what the
RPC interaction did and how long it took.  The iteration outcomes mirror
the source's branches: a receipt obtained; `get_transaction_receipt`
returned `None` (loop continues without sleeping); a
`RequestsConnectionError` (re-raised as `RPCError`); an
already-known duplicate (flag set, loop continues); an error failing
`should_retry` (re-raised as `ChainInteractionError`); a repriceable
error (gas recomputed, loop continues); any other retryable error
(`time.sleep(sleep)` then loop continues). -/

inductive TxAttempt where
  | gotReceipt
  | noReceipt
  | connError
  | errAlreadyKnown
  | errNonRetryable
  | errRepriceable
  | errRetryable
deriving DecidableEq, Repr

inductive SendTxResult where
  | receipt
  | rpcError
  | chainInteractionError
  | chainTimeoutError
deriving DecidableEq, Repr

structure TxEnv where
  attempt : Nat → TxAttempt
  duration : Nat → Nat

structure AttemptLog where
  idx : Nat
  startClock : Nat
  result : TxAttempt
deriving DecidableEq, Repr

/-- The `send_tx` retry loop.  `fuel` is the number of remaining
retries (`max_retries - retries`), `idx` the iteration number, `clock`
the current wall time and `already_known` the duplicate flag.  Returns
the loop's outcome together with the log of iterations performed (each
with its start time). -/
def send_tx_loop (env : TxEnv) (sleep : Nat) (deadline : Nat) :
    Nat → Nat → Nat → Bool → SendTxResult × List AttemptLog
  | 0, _, _, _ => (SendTxResult.chainTimeoutError, [])
  | fuel + 1, idx, clock, already_known =>
    if deadline < clock then
      (SendTxResult.chainTimeoutError, [])
    else
      let entry : AttemptLog := ⟨idx, clock, env.attempt idx⟩
      let after := clock + env.duration idx
      match env.attempt idx with
      | TxAttempt.gotReceipt => (SendTxResult.receipt, [entry])
      | TxAttempt.noReceipt =>
        let r := send_tx_loop env sleep deadline fuel (idx + 1) after already_known
        (r.1, entry :: r.2)
      | TxAttempt.connError => (SendTxResult.rpcError, [entry])
      | TxAttempt.errAlreadyKnown =>
        let r := send_tx_loop env sleep deadline fuel (idx + 1) after true
        (r.1, entry :: r.2)
      | TxAttempt.errNonRetryable =>
        (SendTxResult.chainInteractionError, [entry])
      | TxAttempt.errRepriceable =>
        let r := send_tx_loop env sleep deadline fuel (idx + 1) after already_known
        (r.1, entry :: r.2)
      | TxAttempt.errRetryable =>
        let r := send_tx_loop env sleep deadline fuel (idx + 1) (after + sleep)
          already_known
        (r.1, entry :: r.2)

/-- `send_tx`: the absolute deadline is the start time plus `timeout`,
the loop starts with `retries = 0` and `already_known = False`. -/
def send_tx (env : TxEnv) (timeout max_retries sleep start_clock : Nat) :
    SendTxResult × List AttemptLog :=
  send_tx_loop env sleep (start_clock + timeout) max_retries 0 start_clock false

/-- Between a plain retryable failure and the next iteration, the loop
sleeps the configured number of seconds (on top of the iteration's own
duration). -/
def sleep_respected (env : TxEnv) (sleep : Nat) : List AttemptLog → Prop
  | [] => True
  | [_] => True
  | e1 :: e2 :: rest =>
    (e1.result = TxAttempt.errRetryable →
      e2.startClock = e1.startClock + env.duration e1.idx + sleep) ∧
    sleep_respected env sleep (e2 :: rest)

/-! ## Claim C7: trades.py, `_compute_roi` / `_compute_totals`

The statistics table is a `MarketAttribute × (MarketState + TOTAL)`
matrix; monetary values are embedded as `ℚ` so that the ROI division is
exact.  `mech_statistics` contributes per-question `(count, fees)`
pairs whose totals are recomputed before the per-column pass. -/

inductive MarketState where
  | OPEN
  | PENDING
  | FINALIZING
  | ARBITRATING
  | CLOSED
  | UNKNOWN
deriving DecidableEq, Repr

inductive MarketAttribute where
  | NUM_TRADES
  | NUM_VALID_TRADES
  | WINNER_TRADES
  | NUM_REDEEMED
  | NUM_INVALID_MARKET
  | INVESTMENT
  | FEES
  | MECH_CALLS
  | MECH_FEES
  | EARNINGS
  | NET_EARNINGS
  | REDEMPTIONS
  | ROI
deriving DecidableEq, Repr

inductive TableCol where
  | state (s : MarketState)
  | TOTAL
deriving DecidableEq, Repr

def MARKET_STATES : List MarketState :=
  [MarketState.OPEN, MarketState.PENDING, MarketState.FINALIZING,
   MarketState.ARBITRATING, MarketState.CLOSED, MarketState.UNKNOWN]

def STATS_TABLE_COLS : List TableCol :=
  MARKET_STATES.map TableCol.state ++ [TableCol.TOTAL]

def StatsTable : Type := MarketAttribute → TableCol → ℚ

def table_set (t : StatsTable) (r : MarketAttribute) (c : TableCol) (v : ℚ) :
    StatsTable :=
  fun r' c' => if r' = r ∧ c' = c then v else t r' c'

/-- `_compute_roi`. -/
def compute_roi (initial_value final_value : ℚ) : ℚ :=
  if initial_value ≠ 0 then (final_value - initial_value) / initial_value
  else 0

/-- The body of the `for col in STATS_TABLE_COLS` loop of
`_compute_totals`: deduct the fees from the investment, deduce the net
earnings, recompute the ROI — each read seeing the writes already made
for this column. -/
def compute_totals_col (t : StatsTable) (col : TableCol) : StatsTable :=
  let investment :=
    t MarketAttribute.INVESTMENT col - t MarketAttribute.FEES col
  let t1 := table_set t MarketAttribute.INVESTMENT col investment
  let net :=
    t1 MarketAttribute.EARNINGS col - t1 MarketAttribute.INVESTMENT col -
      t1 MarketAttribute.FEES col - t1 MarketAttribute.MECH_FEES col
  let t2 := table_set t1 MarketAttribute.NET_EARNINGS col net
  let roi :=
    compute_roi
      (t2 MarketAttribute.INVESTMENT col + t2 MarketAttribute.FEES col +
        t2 MarketAttribute.MECH_FEES col)
      (t2 MarketAttribute.EARNINGS col)
  table_set t2 MarketAttribute.ROI col roi

/-- The part of `_compute_totals` before the per-column loop: fill each
row's TOTAL with the sum over the row's columns, then overwrite the
mech-call/mech-fee totals recomputed from `mech_statistics` (pairs of
per-question count and fees). -/
def compute_totals_pre (t : StatsTable)
    (mech_statistics : List (Nat × Nat)) : StatsTable :=
  let t0 : StatsTable := fun row col =>
    if col = TableCol.TOTAL then (STATS_TABLE_COLS.map (t row)).sum
    else t row col
  let total_mech_calls : ℚ :=
    (mech_statistics.map (fun v => (v.1 : ℚ))).sum
  let total_mech_fees : ℚ :=
    (mech_statistics.map (fun v => (v.2 : ℚ))).sum
  let t1 := table_set t0 MarketAttribute.MECH_CALLS TableCol.TOTAL
    total_mech_calls
  table_set t1 MarketAttribute.MECH_FEES TableCol.TOTAL total_mech_fees

/-- `_compute_totals`: the pre-loop pass followed by the `for col in
STATS_TABLE_COLS` loop. -/
def compute_totals (t : StatsTable) (mech_statistics : List (Nat × Nat)) :
    StatsTable :=
  STATS_TABLE_COLS.foldl compute_totals_col
    (compute_totals_pre t mech_statistics)

/-! ## Claims C8 and C10: scripts/mech_events.py `MechRequest` /
`_update_mech_events_db` and trades.py `get_mech_statistics`

Subgraph events and stored records keep the source's fields; the
resolved `ipfs_contents` JSON is embedded as a string-keyed association
list (the Python falsy test on a dict becomes the empty-list test).
The IPFS gateway is an environment of the two fetches
`_populate_ipfs_contents` performs (`{url}/metadata.json` first, the
raw `{url}` second, a later success overwriting an earlier one). -/

def IPFS_ADDRESS : String := "https://gateway.autonolas.tech/ipfs/"

structure SubgraphEvent where
  requestId : String
  sender : String
  ipfsHash : String
  transactionHash : String
  blockNumber : Nat
  blockTimestamp : Nat
deriving DecidableEq, Repr

structure IpfsGateway where
  fetch_metadata_json : String → Option (List (String × String))
  fetch_raw : String → Option (List (String × String))

/-- `_populate_ipfs_contents`: try `{url}/metadata.json` then `{url}`,
each successful fetch setting `(ipfs_link, ipfs_contents)`; failures are
swallowed, leaving the previous value (initially `("", {})`). -/
def populate_ipfs_contents (gw : IpfsGateway) (data : String) :
    String × List (String × String) :=
  let url := IPFS_ADDRESS ++ data
  let s0 := (("" : String), ([] : List (String × String)))
  let s1 :=
    match gw.fetch_metadata_json data with
    | some contents => (url ++ "/metadata.json", contents)
    | none => s0
  match gw.fetch_raw data with
  | some contents => (url, contents)
  | none => s1

/-- The `__dict__` of a `MechRequest` as persisted in the store. -/
structure MechRequestRecord where
  event_id : String
  sender : String
  ipfs_hash : String
  transaction_hash : String
  block_number : Nat
  block_timestamp : Nat
  ipfs_link : String
  ipfs_contents : List (String × String)
  request_id : String
  fee : Nat
deriving DecidableEq, Repr

/-- `MechRequest.__init__`: copy the subgraph event's fields, resolve
the IPFS contents, set `request_id` to the event id and the fee to the
fixed `DEFAULT_MECH_FEE`. -/
def mk_mech_request (gw : IpfsGateway) (event : SubgraphEvent) :
    MechRequestRecord :=
  let populated := populate_ipfs_contents gw event.ipfsHash
  { event_id := event.requestId
    sender := event.sender
    ipfs_hash := event.ipfsHash
    transaction_hash := event.transactionHash
    block_number := event.blockNumber
    block_timestamp := event.blockTimestamp
    ipfs_link := populated.1
    ipfs_contents := populated.2
    request_id := event.requestId
    fee := DEFAULT_MECH_FEE }

/-- Python `d[k] = v` on a dict: overwrite in place if the key exists,
append otherwise. -/
def py_dict_set {α : Type} (d : List (String × α)) (k : String) (v : α) :
    List (String × α) :=
  if d.any (fun kv => kv.1 == k) then
    d.map (fun kv => if kv.1 = k then (k, v) else kv)
  else
    d ++ [(k, v)]

/-- The event-merging loop of `_update_mech_events_db`: an event is
(re)constructed — which performs the IPFS fetches — and merged exactly
when its request id is absent from the store or stored with falsy
(empty) `ipfs_contents`.  Returns the updated store together with the
request ids that were (re)constructed. -/
def update_mech_events_step (gw : IpfsGateway)
    (acc : List (String × MechRequestRecord) × List String)
    (event : SubgraphEvent) :
    List (String × MechRequestRecord) × List String :=
  let needs_construction :=
    match acc.1.lookup event.requestId with
    | none => true
    | some r => r.ipfs_contents.isEmpty
  if needs_construction then
    let mech_event := mk_mech_request gw event
    (py_dict_set acc.1 mech_event.event_id mech_event,
      acc.2 ++ [event.requestId])
  else acc

def update_mech_events_db (gw : IpfsGateway)
    (subgraph_events : List SubgraphEvent)
    (stored_events : List (String × MechRequestRecord)) :
    List (String × MechRequestRecord) × List String :=
  subgraph_events.foldl (update_mech_events_step gw) (stored_events, [])

/-- Modelled from the spec: the chunked block-range scanner variant of
the Event Mirror is not present under src/ (the src variant syncs
through a subgraph and keeps no block cursor).  Per the spec, `sync`
scans from `max(earliest_block, stored_watermark + 1)` to the current
chain head in fixed-size block ranges and persists the updated
watermark after every chunk.  `scan_chunks fuel from_block head chunk`
lists the watermark persisted after each chunk. -/
def scan_chunks : Nat → Nat → Nat → Nat → List Nat
  | 0, _, _, _ => []
  | fuel + 1, from_block, head, chunk =>
    if head < from_block then []
    else
      let chunk_end := min (from_block + chunk) (head + 1) - 1
      chunk_end :: scan_chunks fuel (chunk_end + 1) head chunk

/-- Modelled from the spec: the watermarks persisted by one `sync` call
starting from stored watermark `w0`. -/
def sync_watermarks (w0 earliest head chunk : Nat) : List Nat :=
  scan_chunks (head + 1) (max earliest (w0 + 1)) head chunk

/-- Modelled from the spec: the watermark stored once a `sync` call
finishes (unchanged when there was nothing to scan). -/
def sync_final_watermark (w0 earliest head chunk : Nat) : Nat :=
  (sync_watermarks w0 earliest head chunk).getLast?.getD w0

/-! ### trades.py mech statistics -/

def IRRELEVANT_TOOLS : List String :=
  ["openai-text-davinci-002",
   "openai-text-davinci-003",
   "openai-gpt-3.5-turbo",
   "openai-gpt-4",
   "stabilityai-stable-diffusion-v1-5",
   "stabilityai-stable-diffusion-xl-beta-v2-2-2",
   "stabilityai-stable-diffusion-512-v2-1",
   "stabilityai-stable-diffusion-768-v2-1",
   "deepmind-optimization-strong",
   "deepmind-optimization"]

/-- Python `\s` for the prompt normalization. -/
def is_py_space (c : Char) : Bool :=
  c = ' ' || c = '\t' || c = '\n' || c = '\r' || c = '\x0b' || c = '\x0c'

/-- `re.sub(r"\s+", " ", ...)`: collapse every whitespace run to one
space.  The flag records whether the previous character was part of a
run already replaced. -/
def collapse_whitespace_aux : Bool → List Char → List Char
  | _, [] => []
  | prev_ws, c :: rest =>
    if is_py_space c then
      if prev_ws then collapse_whitespace_aux true rest
      else ' ' :: collapse_whitespace_aux true rest
    else c :: collapse_whitespace_aux false rest

/-- Python `str.strip()`. -/
def py_strip (s : List Char) : List Char :=
  ((s.dropWhile is_py_space).reverse.dropWhile is_py_space).reverse

/-- The prompt normalization of `get_mech_statistics`:
`replace("\n", " ")`, `strip()`, `re.sub(r"\s+", " ", ...)`. -/
def normalize_prompt (prompt : String) : String :=
  let replaced := prompt.toList.map (fun c => if c = '\n' then ' ' else c)
  String.mk (collapse_whitespace_aux false (py_strip replaced))

/-- `re.search(r"\"(.*)\"", prompt)`: greedy, so a match spans from the
first quote to the last; with fewer than two quotes there is no match
and the whole normalized prompt is the question. -/
def extract_question (prompt : String) : String :=
  let normalized := normalize_prompt prompt
  let parts := normalized.splitOn "\""
  if 3 ≤ parts.length then
    String.intercalate "\"" ((parts.drop 1).dropLast)
  else normalized

/-- Per-question mech statistics: `count` and `fees` (a Python
`defaultdict(int)` keyed by question). -/
def MechStatistics : Type := String → Nat × Nat

/-- `get_mech_statistics`: skip records without a resolved tool or
prompt and records whose tool is irrelevant; group the rest by the
question extracted from the prompt, incrementing the count and adding
the record's fee. -/
def get_mech_statistics_step (stats : MechStatistics)
    (r : MechRequestRecord) : MechStatistics :=
  match r.ipfs_contents.lookup "tool", r.ipfs_contents.lookup "prompt" with
  | some tool, some prompt =>
    if tool ∈ IRRELEVANT_TOOLS then stats
    else
      let question := extract_question prompt
      fun q =>
        if q = question then ((stats q).1 + 1, (stats q).2 + r.fee)
        else stats q
  | _, _ => stats

def get_mech_statistics (mech_requests : List MechRequestRecord) :
    MechStatistics :=
  mech_requests.foldl get_mech_statistics_step (fun _ => (0, 0))

/-! ### Concrete sample values -/

def sample_gateway : IpfsGateway :=
  { fetch_metadata_json := fun _ => none
    fetch_raw := fun _ => none }

def sample_subgraph_event : SubgraphEvent :=
  { requestId := "0xaaaa"
    sender := "0xsender"
    ipfsHash := "f01hash"
    transactionHash := "0xtx"
    blockNumber := 100
    blockTimestamp := 1700000000 }

def sample_mech_request : MechRequestRecord :=
  { event_id := "0xaaaa"
    sender := "0xsender"
    ipfs_hash := "f01hash"
    transaction_hash := "0xtx"
    block_number := 100
    block_timestamp := 1700000000
    ipfs_link := "https://gateway.autonolas.tech/ipfs/f01hash"
    ipfs_contents := [("tool", "prediction-online"), ("prompt", "Will it rain?")]
    request_id := "0xaaaa"
    fee := DEFAULT_MECH_FEE }

/-! ## Theorems -/

/-- C1: `_check_unstaking_availability` returns false exactly when
`now − staked_since_ts < min_staking_duration` and `available_rewards > 0`
hold together, and returns true for every other combination; in
particular it returns true whenever `available_rewards = 0`, and whenever
the staked duration meets or exceeds `min_staking_duration`. -/
theorem check_unstaking_availability_guard (now : ℚ)
    (ts_start minimum_staking_duration available_rewards : Nat) :
    (check_unstaking_availability now ts_start minimum_staking_duration
        available_rewards = false ↔
      now - (ts_start : ℚ) < (minimum_staking_duration : ℚ) ∧
        0 < available_rewards) ∧
    check_unstaking_availability now ts_start minimum_staking_duration 0 = true ∧
    ((minimum_staking_duration : ℚ) ≤ now - (ts_start : ℚ) →
      check_unstaking_availability now ts_start minimum_staking_duration
        available_rewards = true) := by
  refine ⟨?_, ?_, ?_⟩
  · by_cases h : now - (ts_start : ℚ) < (minimum_staking_duration : ℚ) ∧
        0 < available_rewards
    · simp [check_unstaking_availability, if_pos h, h]
    · simp only [check_unstaking_availability, if_neg h]
      simp only [Bool.true_eq_false, false_iff]
      exact h
  · simp [check_unstaking_availability]
  · intro h
    simp [check_unstaking_availability, not_lt.mpr h]

/-- Witness for C1 at a concrete input: a service staked long enough can
be unstaked. -/
theorem check_unstaking_availability_guard_witness :
    ((100 : ℚ) : ℚ) ≤ (150 : ℚ) - ((10 : Nat) : ℚ) ∧
    check_unstaking_availability 150 10 100 7 = true := by
  constructor
  · norm_num
  · exact (check_unstaking_availability_guard 150 10 100 7).2.2 (by norm_num)

/-- C6: `is_service_staked` returns true iff the on-chain staking state is
STAKED (1) or EVICTED (2); an evicted service counts as staked and an
unstaked service (state 0) does not. -/
theorem is_service_staked_iff (service_staking_state : Nat) :
    (is_service_staked service_staking_state = true ↔
      service_staking_state = 1 ∨ service_staking_state = 2) ∧
    is_service_staked 2 = true ∧
    is_service_staked 0 = false := by
  refine ⟨?_, by decide, by decide⟩
  simp [is_service_staked]

/-- C9: with `force_write = false` the writer performs no file write and
leaves the last-write timestamp unchanged whenever fewer than 20 seconds
have elapsed since the last completed write; the file is written iff
`force_write` holds or at least 20 seconds have elapsed. -/
theorem write_mech_events_data_to_file_throttles (last_write_time now : ℚ)
    (force_write : Bool) :
    ((write_mech_events_data_to_file last_write_time now force_write).2 = true ↔
      force_write = true ∨ now - last_write_time ≥ MINIMUM_WRITE_FILE_DELAY) ∧
    (force_write = false → now - last_write_time < MINIMUM_WRITE_FILE_DELAY →
      write_mech_events_data_to_file last_write_time now force_write =
        (last_write_time, false)) := by
  constructor
  · unfold write_mech_events_data_to_file
    split
    · rename_i h
      simp only [Bool.or_eq_true, decide_eq_true_eq] at h
      simpa using h
    · rename_i h
      simp only [Bool.or_eq_true, decide_eq_true_eq] at h
      push_neg at h
      constructor
      · intro hcontra
        exact absurd hcontra (by simp)
      · intro hcases
        rcases hcases with h1 | h2
        · exact absurd h1 h.1
        · exact absurd h2 (not_le.mpr h.2)
  · intro hforce hlt
    simp [write_mech_events_data_to_file, hforce, not_le.mpr hlt]

lemma getLast?_cons_override {α : Type} (x : α) (l : List α) :
    (x :: l).getLast? = option_override (some x) l.getLast? := by
  induction l generalizing x with
  | nil => rfl
  | cons y ys ih =>
    rw [List.getLast?_cons_cons, ih y]
    cases h : ys.getLast? with
    | none => rfl
    | some z => rfl

/-- C2 (code bug): `_try_unstake_service` assembles the catalog the
claim describes — the active plus deprecated programs minus the
no-staking sentinel and the excluded `quickstart_alpha_everest` — but
the discovery loop then raises `TypeError` on its very first entry,
because it subscripts the catalog's flat address strings with
`["deployment"]["stakingTokenInstanceAddress"]`.  Whatever the probes
would have reported, no program is ever probed or selected; the
exception reaches `main`'s broad handler and the process exits with
code 1. -/
theorem try_unstake_discovery_raises (staked : String → Bool) :
    all_staking_programs.map Prod.fst =
      ["quickstart_beta_hobbyist", "quickstart_beta_hobbyist_2",
       "quickstart_beta_expert", "quickstart_beta_expert_2",
       "quickstart_beta_expert_3", "quickstart_beta_expert_4",
       "quickstart_beta_expert_5", "quickstart_alpha_alpine",
       "quickstart_alpha_coastal"] ∧
    try_unstake_discovery staked =
      Except.error "TypeError: string indices must be integers" := by
  exact ⟨by decide, rfl⟩

/-! ### send_tx retry-loop lemmas (claim C5) -/

lemma send_tx_loop_trace_head (env : TxEnv) (sleep deadline : Nat)
    (fuel idx clock : Nat) (known : Bool) :
    (send_tx_loop env sleep deadline fuel idx clock known).2 = [] ∨
    ∃ rest, (send_tx_loop env sleep deadline fuel idx clock known).2 =
      ⟨idx, clock, env.attempt idx⟩ :: rest := by
  cases fuel with
  | zero => left; rfl
  | succ n =>
    by_cases hd : deadline < clock
    · left; simp [send_tx_loop, hd]
    · right
      cases ha : env.attempt idx <;>
        simp [send_tx_loop, hd, ha]

lemma send_tx_loop_length (env : TxEnv) (sleep deadline : Nat) :
    ∀ (fuel idx clock : Nat) (known : Bool),
      (send_tx_loop env sleep deadline fuel idx clock known).2.length ≤ fuel := by
  intro fuel
  induction fuel with
  | zero => intro idx clock known; simp [send_tx_loop]
  | succ n ih =>
    intro idx clock known
    by_cases hd : deadline < clock
    · simp [send_tx_loop, hd]
    · cases ha : env.attempt idx <;>
        simp [send_tx_loop, hd, ha] <;>
        first
        | omega
        | exact ih _ _ _

lemma send_tx_loop_clock_bound (env : TxEnv) (sleep deadline : Nat) :
    ∀ (fuel idx clock : Nat) (known : Bool) (e : AttemptLog),
      e ∈ (send_tx_loop env sleep deadline fuel idx clock known).2 →
      e.startClock ≤ deadline ∧ idx ≤ e.idx := by
  intro fuel
  induction fuel with
  | zero => intro idx clock known e he; simp [send_tx_loop] at he
  | succ n ih =>
    intro idx clock known e he
    by_cases hd : deadline < clock
    · simp [send_tx_loop, hd] at he
    · cases ha : env.attempt idx <;>
        simp only [send_tx_loop, hd, if_false, ha, List.mem_singleton,
          List.mem_cons] at he <;>
        (rcases he with rfl | hmem
         · exact ⟨Nat.le_of_not_lt hd, Nat.le_refl idx⟩
         · first
           | exact absurd hmem (List.not_mem_nil _)
           | (rcases ih _ _ _ _ hmem with ⟨h1, h2⟩
              exact ⟨h1, Nat.le_trans (Nat.le_succ idx) h2⟩))

lemma send_tx_loop_sleep (env : TxEnv) (sleep deadline : Nat) :
    ∀ (fuel idx clock : Nat) (known : Bool),
      sleep_respected env sleep
        (send_tx_loop env sleep deadline fuel idx clock known).2 := by
  intro fuel
  induction fuel with
  | zero => intro idx clock known; exact trivial
  | succ n ih =>
    intro idx clock known
    by_cases hd : deadline < clock
    · simp [send_tx_loop, hd, sleep_respected]
    · cases ha : env.attempt idx
      case neg.gotReceipt => simp only [send_tx_loop, hd, if_false, ha]; exact trivial
      case neg.connError => simp only [send_tx_loop, hd, if_false, ha]; exact trivial
      case neg.errNonRetryable =>
        simp only [send_tx_loop, hd, if_false, ha]; exact trivial
      case neg.noReceipt =>
        simp only [send_tx_loop, hd, if_false, ha]
        rcases send_tx_loop_trace_head env sleep deadline n (idx + 1)
            (clock + env.duration idx) known with hnil | ⟨rest, hcons⟩
        · rw [hnil]; exact trivial
        · rw [hcons]
          refine ⟨fun hcontra => absurd hcontra (by simp), ?_⟩
          have h2 := ih (idx + 1) (clock + env.duration idx) known
          rw [hcons] at h2
          exact h2
      case neg.errAlreadyKnown =>
        simp only [send_tx_loop, hd, if_false, ha]
        rcases send_tx_loop_trace_head env sleep deadline n (idx + 1)
            (clock + env.duration idx) true with hnil | ⟨rest, hcons⟩
        · rw [hnil]; exact trivial
        · rw [hcons]
          refine ⟨fun hcontra => absurd hcontra (by simp), ?_⟩
          have h2 := ih (idx + 1) (clock + env.duration idx) true
          rw [hcons] at h2
          exact h2
      case neg.errRepriceable =>
        simp only [send_tx_loop, hd, if_false, ha]
        rcases send_tx_loop_trace_head env sleep deadline n (idx + 1)
            (clock + env.duration idx) known with hnil | ⟨rest, hcons⟩
        · rw [hnil]; exact trivial
        · rw [hcons]
          refine ⟨fun hcontra => absurd hcontra (by simp), ?_⟩
          have h2 := ih (idx + 1) (clock + env.duration idx) known
          rw [hcons] at h2
          exact h2
      case neg.errRetryable =>
        simp only [send_tx_loop, hd, if_false, ha]
        rcases send_tx_loop_trace_head env sleep deadline n (idx + 1)
            (clock + env.duration idx + sleep) known with hnil | ⟨rest, hcons⟩
        · rw [hnil]; exact trivial
        · rw [hcons]
          refine ⟨fun _ => rfl, ?_⟩
          have h2 := ih (idx + 1) (clock + env.duration idx + sleep) known
          rw [hcons] at h2
          exact h2

lemma send_tx_loop_receipt_iff (env : TxEnv) (sleep deadline : Nat) :
    ∀ (fuel idx clock : Nat) (known : Bool),
      ((send_tx_loop env sleep deadline fuel idx clock known).1 =
          SendTxResult.receipt ↔
        ∃ e ∈ (send_tx_loop env sleep deadline fuel idx clock known).2,
          e.result = TxAttempt.gotReceipt) := by
  intro fuel
  induction fuel with
  | zero => intro idx clock known; simp [send_tx_loop]
  | succ n ih =>
    intro idx clock known
    by_cases hd : deadline < clock
    · simp [send_tx_loop, hd]
    · cases ha : env.attempt idx <;>
        simp [send_tx_loop, hd, ha] <;>
        exact ih _ _ _

lemma send_tx_loop_timeout (env : TxEnv) (sleep deadline : Nat) :
    ∀ (fuel idx clock : Nat) (known : Bool),
      (∀ e ∈ (send_tx_loop env sleep deadline fuel idx clock known).2,
        e.result ≠ TxAttempt.gotReceipt ∧ e.result ≠ TxAttempt.connError ∧
          e.result ≠ TxAttempt.errNonRetryable) →
      (send_tx_loop env sleep deadline fuel idx clock known).1 =
        SendTxResult.chainTimeoutError := by
  intro fuel
  induction fuel with
  | zero => intro idx clock known _; rfl
  | succ n ih =>
    intro idx clock known hall
    by_cases hd : deadline < clock
    · simp [send_tx_loop, hd]
    · cases ha : env.attempt idx <;>
        simp only [send_tx_loop, hd, if_false, ha] at hall ⊢
      case neg.gotReceipt =>
        exact absurd rfl
          ((hall ⟨idx, clock, TxAttempt.gotReceipt⟩
            (List.mem_singleton_self _)).1)
      case neg.connError =>
        exact absurd rfl
          ((hall ⟨idx, clock, TxAttempt.connError⟩
            (List.mem_singleton_self _)).2.1)
      case neg.errNonRetryable =>
        exact absurd rfl
          ((hall ⟨idx, clock, TxAttempt.errNonRetryable⟩
            (List.mem_singleton_self _)).2.2)
      case neg.noReceipt =>
        exact ih _ _ _ (fun e he => hall e (List.mem_cons_of_mem _ he))
      case neg.errAlreadyKnown =>
        exact ih _ _ _ (fun e he => hall e (List.mem_cons_of_mem _ he))
      case neg.errRepriceable =>
        exact ih _ _ _ (fun e he => hall e (List.mem_cons_of_mem _ he))
      case neg.errRetryable =>
        exact ih _ _ _ (fun e he => hall e (List.mem_cons_of_mem _ he))

lemma send_tx_loop_non_retryable (env : TxEnv) (sleep deadline : Nat) :
    ∀ (fuel idx clock : Nat) (known : Bool) (e : AttemptLog),
      e ∈ (send_tx_loop env sleep deadline fuel idx clock known).2 →
      e.result = TxAttempt.errNonRetryable →
      (send_tx_loop env sleep deadline fuel idx clock known).1 =
          SendTxResult.chainInteractionError ∧
        ∀ e2 ∈ (send_tx_loop env sleep deadline fuel idx clock known).2,
          e2.idx ≤ e.idx := by
  intro fuel
  induction fuel with
  | zero => intro idx clock known e he; simp [send_tx_loop] at he
  | succ n ih =>
    intro idx clock known e he hres
    by_cases hd : deadline < clock
    · simp [send_tx_loop, hd] at he
    · cases ha : env.attempt idx <;>
        simp only [send_tx_loop, hd, if_false, ha, List.mem_cons,
          List.not_mem_nil, or_false] at he ⊢
      case neg.gotReceipt => subst he; simp at hres
      case neg.connError => subst he; simp at hres
      case neg.errNonRetryable =>
        subst he
        refine ⟨by simp, ?_⟩
        intro e2 he2
        subst he2
        exact Nat.le_refl _
      case neg.noReceipt =>
        rcases he with rfl | hmem
        · simp at hres
        · rcases ih _ _ _ e hmem hres with ⟨h1, h2⟩
          refine ⟨h1, ?_⟩
          intro e2 he2
          rcases he2 with rfl | hmem2
          · exact Nat.le_trans (Nat.le_succ idx)
              (send_tx_loop_clock_bound env sleep deadline n _ _ _ e hmem).2
          · exact h2 e2 hmem2
      case neg.errAlreadyKnown =>
        rcases he with rfl | hmem
        · simp at hres
        · rcases ih _ _ _ e hmem hres with ⟨h1, h2⟩
          refine ⟨h1, ?_⟩
          intro e2 he2
          rcases he2 with rfl | hmem2
          · exact Nat.le_trans (Nat.le_succ idx)
              (send_tx_loop_clock_bound env sleep deadline n _ _ _ e hmem).2
          · exact h2 e2 hmem2
      case neg.errRepriceable =>
        rcases he with rfl | hmem
        · simp at hres
        · rcases ih _ _ _ e hmem hres with ⟨h1, h2⟩
          refine ⟨h1, ?_⟩
          intro e2 he2
          rcases he2 with rfl | hmem2
          · exact Nat.le_trans (Nat.le_succ idx)
              (send_tx_loop_clock_bound env sleep deadline n _ _ _ e hmem).2
          · exact h2 e2 hmem2
      case neg.errRetryable =>
        rcases he with rfl | hmem
        · simp at hres
        · rcases ih _ _ _ e hmem hres with ⟨h1, h2⟩
          refine ⟨h1, ?_⟩
          intro e2 he2
          rcases he2 with rfl | hmem2
          · exact Nat.le_trans (Nat.le_succ idx)
              (send_tx_loop_clock_bound env sleep deadline n _ _ _ e hmem).2
          · exact h2 e2 hmem2

/-- C5: `send_tx` performs at most `max_retries` iterations and starts
none past the absolute deadline (start time plus `timeout`); between
plain retryable failures it sleeps the configured seconds; it returns
the receipt iff some iteration obtained one; a non-retryable error
raises `ChainInteractionError` immediately, with no later iteration
consuming the remaining retries; and if the loop ends without a receipt
(and without a connection or non-retryable error) it raises
`ChainTimeoutError`. -/
theorem send_tx_retry_semantics (env : TxEnv)
    (timeout max_retries sleep start_clock : Nat) :
    (send_tx env timeout max_retries sleep start_clock).2.length ≤
        max_retries ∧
    (∀ e ∈ (send_tx env timeout max_retries sleep start_clock).2,
      e.startClock ≤ start_clock + timeout) ∧
    sleep_respected env sleep
      (send_tx env timeout max_retries sleep start_clock).2 ∧
    ((send_tx env timeout max_retries sleep start_clock).1 =
        SendTxResult.receipt ↔
      ∃ e ∈ (send_tx env timeout max_retries sleep start_clock).2,
        e.result = TxAttempt.gotReceipt) ∧
    (∀ e ∈ (send_tx env timeout max_retries sleep start_clock).2,
      e.result = TxAttempt.errNonRetryable →
        (send_tx env timeout max_retries sleep start_clock).1 =
            SendTxResult.chainInteractionError ∧
          ∀ e2 ∈ (send_tx env timeout max_retries sleep start_clock).2,
            e2.idx ≤ e.idx) ∧
    ((∀ e ∈ (send_tx env timeout max_retries sleep start_clock).2,
        e.result ≠ TxAttempt.gotReceipt ∧ e.result ≠ TxAttempt.connError ∧
          e.result ≠ TxAttempt.errNonRetryable) →
      (send_tx env timeout max_retries sleep start_clock).1 =
        SendTxResult.chainTimeoutError) :=
  ⟨send_tx_loop_length env sleep (start_clock + timeout) max_retries 0
      start_clock false,
   fun e he =>
    (send_tx_loop_clock_bound env sleep (start_clock + timeout) max_retries 0
      start_clock false e he).1,
   send_tx_loop_sleep env sleep (start_clock + timeout) max_retries 0
     start_clock false,
   send_tx_loop_receipt_iff env sleep (start_clock + timeout) max_retries 0
     start_clock false,
   fun e he hres =>
    send_tx_loop_non_retryable env sleep (start_clock + timeout) max_retries 0
      start_clock false e he hres,
   send_tx_loop_timeout env sleep (start_clock + timeout) max_retries 0
     start_clock false⟩

/-- Witness for C5 at a concrete input: with one retryable failure
followed by a non-retryable error, the loop ends at the non-retryable
iteration with `ChainInteractionError`. -/
theorem send_tx_retry_semantics_witness :
    (⟨1, 7, TxAttempt.errNonRetryable⟩ : AttemptLog) ∈
      (send_tx
        ⟨fun i => if i = 0 then TxAttempt.errRetryable
          else TxAttempt.errNonRetryable, fun _ => 1⟩
        100 10 6 0).2 ∧
    (send_tx
      ⟨fun i => if i = 0 then TxAttempt.errRetryable
        else TxAttempt.errNonRetryable, fun _ => 1⟩
      100 10 6 0).1 = SendTxResult.chainInteractionError := by
  refine ⟨by decide, ?_⟩
  exact ((send_tx_retry_semantics
    ⟨fun i => if i = 0 then TxAttempt.errRetryable
      else TxAttempt.errNonRetryable, fun _ => 1⟩
    100 10 6 0).2.2.2.2.1 ⟨1, 7, TxAttempt.errNonRetryable⟩
    (by decide) rfl).1

/-- C4: the stake plan built by `get_stake_txs` is exactly two
descriptors, the approval of the staking contract for the service id
against the service registry first and the stake call against the
staking contract second, and the reconciler's submission loop sends them
in that order, awaiting each receipt before sending the next. -/
theorem get_stake_txs_plan (service_id : Nat)
    (service_registry_address staking_contract_address : String) :
    ∃ approval_tx stake_tx,
      get_stake_txs service_id service_registry_address
          staking_contract_address = [approval_tx, stake_tx] ∧
      approval_tx.txData =
        TxData.approval service_registry_address staking_contract_address
          service_id ∧
      approval_tx.toAddress = service_registry_address ∧
      stake_tx.txData = TxData.stake service_id ∧
      stake_tx.toAddress = staking_contract_address ∧
      send_all_txs_trace
          (get_stake_txs service_id service_registry_address
            staking_contract_address) =
        [TraceEvent.sent approval_tx, TraceEvent.receiptAwaited approval_tx,
          TraceEvent.sent stake_tx, TraceEvent.receiptAwaited stake_tx] := by
  refine ⟨get_approval_tx service_registry_address staking_contract_address
      service_id,
    { txData := TxData.stake service_id
      toAddress := staking_contract_address
      value := ZERO_ETH }, rfl, rfl, rfl, rfl, rfl, rfl⟩

/-- C3 counterexample: with 5 available slots and zero available rewards,
`_try_stake_service` exits with code 0 (not a non-zero code as the claim
states); it does issue no transactions. -/
theorem try_stake_service_zero_rewards_exit_zero :
    try_stake_service 1 "0xSR" "0xSC" 5 0 = (0, []) := by
  decide

/-- C3 amended: if `available_slots ≤ 0` the process exits with the
non-zero code 1 issuing no transactions; if `available_slots > 0` and
`available_rewards = 0` the process exits with code 0 as a no-op,
likewise issuing no transactions. -/
theorem try_stake_service_guards (service_id : Nat)
    (service_registry_address staking_contract_address : String)
    (available_slots : Int) (available_rewards : Nat) :
    (available_slots ≤ 0 →
      try_stake_service service_id service_registry_address
          staking_contract_address available_slots available_rewards =
        (1, []) ∧ (1 : Nat) ≠ 0) ∧
    (0 < available_slots →
      try_stake_service service_id service_registry_address
          staking_contract_address available_slots 0 = (0, [])) := by
  constructor
  · intro h
    exact ⟨by simp [try_stake_service, not_lt.mpr h], by decide⟩
  · intro h
    simp [try_stake_service, h]

/-- Witness for C3 (amended) at concrete inputs: zero slots exit code 1,
and positive slots with zero rewards exit code 0, both without
transactions. -/
theorem try_stake_service_guards_witness :
    ((0 : Int) ≤ 0 ∧
      try_stake_service 1 "0xSR" "0xSC" 0 7 = (1, []) ∧ (1 : Nat) ≠ 0) ∧
    ((0 : Int) < 5 ∧ try_stake_service 1 "0xSR" "0xSC" 5 0 = (0, [])) := by
  constructor
  · exact ⟨le_refl 0,
      (try_stake_service_guards 1 "0xSR" "0xSC" 0 7).1 (le_refl 0)⟩
  · exact ⟨by decide, (try_stake_service_guards 1 "0xSR" "0xSC" 5 0).2
      (by decide)⟩

/-! ### Statistics-table lemmas (claim C7) -/

lemma table_set_other (t : StatsTable) (r : MarketAttribute) (c : TableCol)
    (v : ℚ) (r' : MarketAttribute) (c' : TableCol)
    (h : r' ≠ r ∨ c' ≠ c) :
    table_set t r c v r' c' = t r' c' := by
  simp only [table_set]
  rw [if_neg]
  rintro ⟨h1, h2⟩
  rcases h with h | h
  · exact h h1
  · exact h h2

lemma compute_totals_col_other (t : StatsTable) (col c' : TableCol)
    (h : c' ≠ col) (r : MarketAttribute) :
    compute_totals_col t col r c' = t r c' := by
  simp only [compute_totals_col]
  rw [table_set_other _ _ _ _ _ _ (Or.inr h),
    table_set_other _ _ _ _ _ _ (Or.inr h),
    table_set_other _ _ _ _ _ _ (Or.inr h)]

lemma foldl_compute_totals_col_not_mem (L : List TableCol) :
    ∀ (t : StatsTable) (col : TableCol), col ∉ L →
      ∀ (r : MarketAttribute),
        (L.foldl compute_totals_col t) r col = t r col := by
  induction L with
  | nil => intro t col _ r; rfl
  | cons x xs ih =>
    intro t col hcol r
    rw [List.foldl_cons, ih (compute_totals_col t x) col
      (fun hmem => hcol (List.mem_cons_of_mem x hmem)),
      compute_totals_col_other t x col
      (fun hx => hcol (hx ▸ List.mem_cons_self x xs)) r]

lemma compute_totals_col_roi (t : StatsTable) (col : TableCol) :
    compute_totals_col t col MarketAttribute.ROI col =
      compute_roi
        (compute_totals_col t col MarketAttribute.INVESTMENT col +
          compute_totals_col t col MarketAttribute.FEES col +
          compute_totals_col t col MarketAttribute.MECH_FEES col)
        (compute_totals_col t col MarketAttribute.EARNINGS col) := by
  simp [compute_totals_col, table_set]

lemma foldl_compute_totals_col_roi (L : List TableCol) :
    ∀ (t : StatsTable), L.Nodup → ∀ col ∈ L,
      (L.foldl compute_totals_col t) MarketAttribute.ROI col =
        compute_roi
          ((L.foldl compute_totals_col t) MarketAttribute.INVESTMENT col +
            (L.foldl compute_totals_col t) MarketAttribute.FEES col +
            (L.foldl compute_totals_col t) MarketAttribute.MECH_FEES col)
          ((L.foldl compute_totals_col t) MarketAttribute.EARNINGS col) := by
  induction L with
  | nil => intro t _ col hcol; exact absurd hcol (List.not_mem_nil col)
  | cons x xs ih =>
    intro t hnd col hcol
    have hx : x ∉ xs := (List.nodup_cons.mp hnd).1
    have hxs : xs.Nodup := (List.nodup_cons.mp hnd).2
    rw [List.foldl_cons]
    rcases List.mem_cons.mp hcol with rfl | hmem
    · rw [foldl_compute_totals_col_not_mem xs _ col hx,
        foldl_compute_totals_col_not_mem xs _ col hx,
        foldl_compute_totals_col_not_mem xs _ col hx,
        foldl_compute_totals_col_not_mem xs _ col hx,
        foldl_compute_totals_col_not_mem xs _ col hx]
      exact compute_totals_col_roi t col
    · exact ih (compute_totals_col t x) hxs col hmem

/-- C7: for every column of the statistics table, after
`_compute_totals` the ROI entry equals
`(EARNINGS − INVESTMENT − FEES − MECH_FEES) / (INVESTMENT + FEES +
MECH_FEES)` over that column's final values, and equals exactly 0 when
the denominator is 0 (the division is total, never an error). -/
theorem compute_totals_roi_formula (t : StatsTable)
    (mech_statistics : List (Nat × Nat)) (col : TableCol) :
    compute_totals t mech_statistics MarketAttribute.ROI col =
      if compute_totals t mech_statistics MarketAttribute.INVESTMENT col +
          compute_totals t mech_statistics MarketAttribute.FEES col +
          compute_totals t mech_statistics MarketAttribute.MECH_FEES col =
          0 then 0
      else
        (compute_totals t mech_statistics MarketAttribute.EARNINGS col -
          compute_totals t mech_statistics MarketAttribute.INVESTMENT col -
          compute_totals t mech_statistics MarketAttribute.FEES col -
          compute_totals t mech_statistics MarketAttribute.MECH_FEES col) /
        (compute_totals t mech_statistics MarketAttribute.INVESTMENT col +
          compute_totals t mech_statistics MarketAttribute.FEES col +
          compute_totals t mech_statistics MarketAttribute.MECH_FEES col) := by
  have hmem : col ∈ STATS_TABLE_COLS := by
    cases col with
    | state s => cases s <;> decide
    | TOTAL => decide
  have hnd : STATS_TABLE_COLS.Nodup := by decide
  have h := foldl_compute_totals_col_roi STATS_TABLE_COLS
    (compute_totals_pre t mech_statistics) hnd col hmem
  unfold compute_totals
  rw [h, compute_roi]
  by_cases hz :
      (STATS_TABLE_COLS.foldl compute_totals_col
          (compute_totals_pre t mech_statistics))
          MarketAttribute.INVESTMENT col +
        (STATS_TABLE_COLS.foldl compute_totals_col
          (compute_totals_pre t mech_statistics)) MarketAttribute.FEES col +
        (STATS_TABLE_COLS.foldl compute_totals_col
          (compute_totals_pre t mech_statistics))
          MarketAttribute.MECH_FEES col = 0
  · rw [if_pos hz, if_neg (by simpa using hz)]
  · rw [if_neg hz, if_pos hz]
    ring_nf

/-- Witness for C9 at a concrete input: 5 seconds after the last write,
an unforced persist is skipped. -/
theorem write_mech_events_data_to_file_throttles_witness :
    (false : Bool) = false ∧ (105 : ℚ) - 100 < MINIMUM_WRITE_FILE_DELAY ∧
    write_mech_events_data_to_file 100 105 false = (100, false) := by
  refine ⟨rfl, by norm_num [MINIMUM_WRITE_FILE_DELAY], ?_⟩
  exact (write_mech_events_data_to_file_throttles 100 105 false).2 rfl
    (by norm_num [MINIMUM_WRITE_FILE_DELAY])

/-! ### Mech-events store lemmas (claims C8 and C10) -/

lemma lookup_map_overwrite {α : Type} (k k' : String) (v : α) (h : k' ≠ k) :
    ∀ d : List (String × α),
      (d.map (fun kv => if kv.1 = k then (k, v) else kv)).lookup k' =
        d.lookup k' := by
  intro d
  induction d with
  | nil => rfl
  | cons x xs ih =>
    by_cases hx : x.1 = k
    · rw [List.map_cons, if_pos hx]
      have hk1 : (k' == k) = false := beq_eq_false_iff_ne.mpr h
      have hk2 : (k' == x.1) = false := beq_eq_false_iff_ne.mpr (hx ▸ h)
      simp [List.lookup, hk1, hk2, ih]
    · rw [List.map_cons, if_neg hx]
      by_cases hk : k' = x.1
      · simp [List.lookup, beq_iff_eq.mpr hk]
      · simp [List.lookup, beq_eq_false_iff_ne.mpr hk, ih]

lemma lookup_append_singleton {α : Type} (k k' : String) (v : α)
    (h : k' ≠ k) :
    ∀ d : List (String × α), (d ++ [(k, v)]).lookup k' = d.lookup k' := by
  intro d
  induction d with
  | nil => simp [List.lookup, beq_eq_false_iff_ne.mpr h]
  | cons x xs ih =>
    by_cases hk : k' = x.1
    · simp [List.lookup, beq_iff_eq.mpr hk]
    · simp [List.lookup, beq_eq_false_iff_ne.mpr hk, ih]

lemma py_dict_set_lookup_other {α : Type} (d : List (String × α))
    (k k' : String) (v : α) (h : k' ≠ k) :
    (py_dict_set d k v).lookup k' = d.lookup k' := by
  unfold py_dict_set
  split
  · exact lookup_map_overwrite k k' v h d
  · exact lookup_append_singleton k k' v h d

lemma update_mech_events_step_preserves (gw : IpfsGateway) (id : String)
    (rec : MechRequestRecord) (hne : rec.ipfs_contents ≠ [])
    (acc : List (String × MechRequestRecord) × List String)
    (event : SubgraphEvent) (h1 : acc.1.lookup id = some rec)
    (h2 : id ∉ acc.2) :
    (update_mech_events_step gw acc event).1.lookup id = some rec ∧
      id ∉ (update_mech_events_step gw acc event).2 := by
  unfold update_mech_events_step
  by_cases hid : event.requestId = id
  · have hempty : rec.ipfs_contents.isEmpty = false := by
      cases hc : rec.ipfs_contents with
      | nil => exact absurd hc hne
      | cons y ys => rfl
    rw [hid, h1]
    simp only [hempty, if_false]
    exact ⟨h1, h2⟩
  · by_cases hneeds :
        (match acc.1.lookup event.requestId with
          | none => true
          | some r => r.ipfs_contents.isEmpty) = true
    · simp only [hneeds, if_true]
      constructor
      · exact (py_dict_set_lookup_other acc.1 _ id _
          (fun hcontra => hid hcontra.symm)).trans h1
      · intro hmem
        rcases List.mem_append.mp hmem with hmem1 | hmem2
        · exact h2 hmem1
        · exact hid (List.mem_singleton.mp hmem2).symm
    · simp only [Bool.not_eq_true] at hneeds
      simp only [hneeds, if_false]
      exact ⟨h1, h2⟩

lemma update_mech_events_fold_preserves (gw : IpfsGateway) (id : String)
    (rec : MechRequestRecord) (hne : rec.ipfs_contents ≠ []) :
    ∀ (events : List SubgraphEvent)
      (acc : List (String × MechRequestRecord) × List String),
      acc.1.lookup id = some rec → id ∉ acc.2 →
      (events.foldl (update_mech_events_step gw) acc).1.lookup id =
          some rec ∧
        id ∉ (events.foldl (update_mech_events_step gw) acc).2 := by
  intro events
  induction events with
  | nil => intro acc h1 h2; exact ⟨h1, h2⟩
  | cons e es ih =>
    intro acc h1 h2
    rw [List.foldl_cons]
    rcases update_mech_events_step_preserves gw id rec hne acc e h1 h2 with
      ⟨h1s, h2s⟩
    exact ih _ h1s h2s

/-! ### Watermark lemmas (claim C8, spec-modelled scanner) -/

lemma scan_chunks_chain :
    ∀ (fuel from_block head chunk base : Nat), base + 1 ≤ from_block →
      List.Chain (fun a b => a ≤ b) base
        (scan_chunks fuel from_block head chunk) := by
  intro fuel
  induction fuel with
  | zero => intro _ _ _ base _; exact List.Chain.nil
  | succ n ih =>
    intro fb head chunk base hbase
    by_cases hd : head < fb
    · simp [scan_chunks, hd]
    · simp only [scan_chunks, hd, if_false]
      have hmin : fb ≤ min (fb + chunk) (head + 1) :=
        le_min (Nat.le_add_right fb chunk) (by omega)
      refine List.Chain.cons (by omega) (ih _ _ _ _ (by omega))

lemma chain_le_getLastD :
    ∀ (l : List Nat) (b : Nat),
      List.Chain (fun a c => a ≤ c) b l → b ≤ l.getLast?.getD b := by
  intro l
  induction l with
  | nil => intro b _; exact Nat.le_refl b
  | cons x xs ih =>
    intro b hchain
    rcases List.chain_cons.mp hchain with ⟨hbx, hxs⟩
    have hx := ih x hxs
    rw [getLast?_cons_override]
    cases hxl : xs.getLast? with
    | none => exact hbx
    | some z =>
      rw [hxl] at hx
      exact Nat.le_trans hbx hx

/-- C8: during an update of the local Mech events store, a stored record
with non-empty resolved `ipfs_contents` is left unchanged and its id is
never among those (re)constructed (hence never re-fetched); and — for
the spec-modelled chunked scanner — the watermarks persisted by a `sync`
call are non-decreasing from the stored watermark onward, so across
successive calls the persisted `last_processed_block` never decreases. -/
theorem mech_events_no_refetch_and_watermark_monotone :
    (∀ (gw : IpfsGateway) (events : List SubgraphEvent)
        (stored : List (String × MechRequestRecord)) (id : String)
        (rec : MechRequestRecord),
      stored.lookup id = some rec → rec.ipfs_contents ≠ [] →
        (update_mech_events_db gw events stored).1.lookup id = some rec ∧
          id ∉ (update_mech_events_db gw events stored).2) ∧
    (∀ (w0 earliest head chunk : Nat),
      List.Chain (fun a b => a ≤ b) w0
          (sync_watermarks w0 earliest head chunk) ∧
        w0 ≤ sync_final_watermark w0 earliest head chunk) := by
  constructor
  · intro gw events stored id rec h1 h2
    exact update_mech_events_fold_preserves gw id rec h2 events
      (stored, []) h1 (List.not_mem_nil id)
  · intro w0 earliest head chunk
    have hchain : List.Chain (fun a b => a ≤ b) w0
        (sync_watermarks w0 earliest head chunk) :=
      scan_chunks_chain (head + 1) (max earliest (w0 + 1)) head chunk w0
        (le_max_right earliest (w0 + 1))
    exact ⟨hchain, chain_le_getLastD _ w0 hchain⟩

/-- Witness for C8 at a concrete input: a stored record with resolved
contents survives a sync over an event with the same request id, is not
re-fetched, and a concrete scan (watermark 5, head 9, chunks of 3) only
moves the watermark forward. -/
theorem mech_events_no_refetch_witness :
    [("0xaaaa", sample_mech_request)].lookup "0xaaaa" =
        some sample_mech_request ∧
    sample_mech_request.ipfs_contents ≠ [] ∧
    (update_mech_events_db sample_gateway [sample_subgraph_event]
        [("0xaaaa", sample_mech_request)]).1.lookup "0xaaaa" =
      some sample_mech_request ∧
    "0xaaaa" ∉ (update_mech_events_db sample_gateway [sample_subgraph_event]
      [("0xaaaa", sample_mech_request)]).2 ∧
    5 ≤ sync_final_watermark 5 0 9 3 := by
  refine ⟨by decide, by decide, ?_, ?_, ?_⟩
  · exact (mech_events_no_refetch_and_watermark_monotone.1 sample_gateway
      [sample_subgraph_event] [("0xaaaa", sample_mech_request)] "0xaaaa"
      sample_mech_request (by decide) (by decide)).1
  · exact (mech_events_no_refetch_and_watermark_monotone.1 sample_gateway
      [sample_subgraph_event] [("0xaaaa", sample_mech_request)] "0xaaaa"
      sample_mech_request (by decide) (by decide)).2
  · exact (mech_events_no_refetch_and_watermark_monotone.2 5 0 9 3).2

/-! ### Mech-fee lemmas (claim C10) -/

lemma get_mech_statistics_step_preserves (F : Nat)
    (stats : MechStatistics) (r : MechRequestRecord) (hfee : r.fee = F)
    (hstats : ∀ q, (stats q).2 = (stats q).1 * F) :
    ∀ q, ((get_mech_statistics_step stats r) q).2 =
      ((get_mech_statistics_step stats r) q).1 * F := by
  intro q
  unfold get_mech_statistics_step
  cases htool : r.ipfs_contents.lookup "tool" with
  | none => exact hstats q
  | some tool =>
    cases hprompt : r.ipfs_contents.lookup "prompt" with
    | none => exact hstats q
    | some prompt =>
      by_cases hirr : tool ∈ IRRELEVANT_TOOLS
      · simp only [hirr, if_true]
        exact hstats q
      · simp only [hirr, if_false]
        by_cases hq : q = extract_question prompt
        · subst hq
          rw [if_pos rfl]
          show (stats (extract_question prompt)).2 + r.fee =
            ((stats (extract_question prompt)).1 + 1) * F
          rw [hfee, hstats (extract_question prompt), Nat.succ_mul]
        · simp only [if_neg hq]
          exact hstats q

lemma get_mech_statistics_fold_preserves (F : Nat) :
    ∀ (l : List MechRequestRecord) (stats : MechStatistics),
      (∀ r ∈ l, r.fee = F) →
      (∀ q, (stats q).2 = (stats q).1 * F) →
      ∀ q, ((l.foldl get_mech_statistics_step stats) q).2 =
        ((l.foldl get_mech_statistics_step stats) q).1 * F := by
  intro l
  induction l with
  | nil => intro stats _ hstats q; exact hstats q
  | cons r rs ih =>
    intro stats hfees hstats q
    rw [List.foldl_cons]
    exact ih _ (fun r2 h2 => hfees r2 (List.mem_cons_of_mem r h2))
      (get_mech_statistics_step_preserves F stats r
        (hfees r (List.mem_cons_self r rs)) hstats) q

/-- C10: every `MechRequest` constructed from a subgraph event carries
the fixed fee `DEFAULT_MECH_FEE = 10000000000000000` wei; consequently,
when every stored record carries that fee, each per-question fee total
aggregated by `get_mech_statistics` equals the question's request count
times the constant. -/
theorem mech_request_fee_constant :
    (∀ (gw : IpfsGateway) (event : SubgraphEvent),
      (mk_mech_request gw event).fee = DEFAULT_MECH_FEE) ∧
    (∀ (mech_requests : List MechRequestRecord),
      (∀ r ∈ mech_requests, r.fee = DEFAULT_MECH_FEE) →
      ∀ q, (get_mech_statistics mech_requests q).2 =
        (get_mech_statistics mech_requests q).1 * DEFAULT_MECH_FEE) := by
  constructor
  · intro gw event; rfl
  · intro mech_requests hfees q
    exact get_mech_statistics_fold_preserves DEFAULT_MECH_FEE mech_requests
      (fun _ => (0, 0)) hfees (fun _ => (Nat.zero_mul DEFAULT_MECH_FEE).symm) q

/-- Witness for C10 at a concrete input: a store with one request whose
fee is the constant yields, for its question, fees equal to count times
the constant. -/
theorem mech_request_fee_constant_witness :
    (∀ r ∈ [sample_mech_request], r.fee = DEFAULT_MECH_FEE) ∧
    (get_mech_statistics [sample_mech_request] "Will it rain?").2 =
      (get_mech_statistics [sample_mech_request] "Will it rain?").1 *
        DEFAULT_MECH_FEE := by
  refine ⟨by decide, ?_⟩
  exact mech_request_fee_constant.2 [sample_mech_request] (by decide)
    "Will it rain?"
